import Mathlib

/-!
# Verification of the CLox scanner and virtual machine

Shallow embedding of `src/scanner.c` and `src/vm.c` from the CLox repository,
together with theorems settling the specification claims about them.

The scanner's cursor (`start`, `current` — `char*` pointers into the
null-terminated source buffer in C) is modelled as `Nat` indices into a
`List Char`; reading the terminating null byte is modelled by `charAt`,
which yields `'\x00'` past the end of the list.  Loops (`for`/`while` in C)
are translated to structurally recursive functions over an explicit fuel
that is instantiated, at each loop's entry, with a bound large enough for
the loop's maximal trip count (every loop advances `current` while
`current < source.length`), so all definitions compute by `decide`/`rfl`.
-/

set_option maxRecDepth 4000

namespace CLox

/-- Token kinds.  `scanner.h` is not part of the snapshot; the constructor
names are the ones used by `src/scanner.c` and the spec's token vocabulary. -/
inductive TokenType where
  | TOKEN_LEFT_PAREN | TOKEN_RIGHT_PAREN | TOKEN_LEFT_BRACE | TOKEN_RIGHT_BRACE
  | TOKEN_SEMICOLON | TOKEN_COMMA | TOKEN_DOT | TOKEN_MINUS | TOKEN_PLUS
  | TOKEN_SLASH | TOKEN_ASTERISK
  | TOKEN_BANG | TOKEN_BANG_EQUAL | TOKEN_EQUAL | TOKEN_EQUAL_EQUAL
  | TOKEN_GREATER | TOKEN_GREATER_EQUAL | TOKEN_LESS | TOKEN_LESS_EQUAL
  | TOKEN_IDENTIFIER | TOKEN_STRING | TOKEN_NUMBER
  | TOKEN_AND | TOKEN_CLASS | TOKEN_ELSE | TOKEN_FALSE | TOKEN_FOR | TOKEN_FUN
  | TOKEN_IF | TOKEN_NIL | TOKEN_OR | TOKEN_PRINT | TOKEN_RETURN | TOKEN_SUPER
  | TOKEN_THIS | TOKEN_TRUE | TOKEN_VAR | TOKEN_WHILE
  | TOKEN_ERROR | TOKEN_EOF
  deriving DecidableEq, Repr

/-- A token's `start` field is a `const char*`: either a position inside the
source buffer (`makeToken`) or a static diagnostic string (`errorToken`). -/
inductive StrRef where
  | src (i : Nat)
  | lit (msg : String)
  deriving DecidableEq, Repr

/-- `Token` from `scanner.c`: type, start pointer, length, 1-based line. -/
structure Token where
  type : TokenType
  start : StrRef
  length : Nat
  line : Nat
  deriving DecidableEq, Repr

/-- `Scanner` state from `scanner.c`: the `start` and `current` pointers into
the source buffer (modelled as indices) and the line counter.  The borrowed
source buffer itself is carried in the state. -/
@[ext] structure Scanner where
  source : List Char
  start : Nat
  current : Nat
  line : Nat
  deriving DecidableEq, Repr

/-- Reading byte `i` of the null-terminated buffer: past the end of the
character list stands the terminating `'\0'`. -/
def charAt (src : List Char) (i : Nat) : Char :=
  src.getD i '\x00'

/-- `initScanner`: cursor to the start of the source, line 1. -/
def initScanner (source : List Char) : Scanner :=
  { source := source, start := 0, current := 0, line := 1 }

/-- `isAlpha` from `scanner.c`. -/
def isAlpha (c : Char) : Bool :=
  ('a' ≤ c && c ≤ 'z') || ('A' ≤ c && c ≤ 'Z') || c == '_'

/-- `isDigit` from `scanner.c`. -/
def isDigit (c : Char) : Bool :=
  '0' ≤ c && c ≤ '9'

/-- `isAtEnd`: the current character is the null byte. -/
def isAtEnd (s : Scanner) : Bool :=
  charAt s.source s.current == '\x00'

/-- The state effect of `advance()` (the returned character is the one at the
pre-increment `current`, i.e. `peek s` before the call). -/
def adv (s : Scanner) : Scanner :=
  { s with current := s.current + 1 }

/-- `peek`: the current character, not consumed. -/
def peek (s : Scanner) : Char :=
  charAt s.source s.current

/-- `peekNext` from `scanner.c`. -/
def peekNext (s : Scanner) : Char :=
  if isAtEnd s then '\x00' else charAt s.source (s.current + 1)

/-- `match` from `scanner.c` (named `matchCh` as `match` is reserved in Lean):
conditionally consumes the expected character. -/
def matchCh (expected : Char) (s : Scanner) : Bool × Scanner :=
  if isAtEnd s then (false, s)
  else if charAt s.source s.current ≠ expected then (false, s)
  else (true, adv s)

/-- `makeToken` from `scanner.c`. -/
def makeToken (type : TokenType) (s : Scanner) : Token :=
  { type := type, start := .src s.start, length := s.current - s.start, line := s.line }

/-- `errorToken` from `scanner.c`: the token borrows the static message. -/
def errorToken (message : String) (s : Scanner) : Token :=
  { type := .TOKEN_ERROR, start := .lit message, length := message.length, line := s.line }

/-- The `while (peek() != '\n' && !isAtEnd()) advance();` loop consuming a
`//` line comment, with explicit fuel. -/
def lineCommentFuel : Nat → Scanner → Scanner
  | 0, s => s
  | fuel + 1, s =>
    if peek s ≠ '\n' ∧ ¬ isAtEnd s then lineCommentFuel fuel (adv s) else s

def lineComment (s : Scanner) : Scanner :=
  lineCommentFuel (s.source.length - s.current) s

/-- The `while (!isAtEnd()) { ... }` loop inside the block-comment branch of
`skipWhitespace`, with explicit fuel: count newlines, stop after consuming a
closing `*/`. -/
def blockCommentFuel : Nat → Scanner → Scanner
  | 0, s => s
  | fuel + 1, s =>
    if ¬ isAtEnd s then
      let s1 := if peek s = '\n' then { s with line := s.line + 1 } else s
      if peek s1 = '*' ∧ peekNext s1 = '/' then adv (adv s1)
      else blockCommentFuel fuel (adv s1)
    else s

def blockComment (s : Scanner) : Scanner :=
  blockCommentFuel (s.source.length - s.current) s

/-- One pass of the `for (;;)` loop of `skipWhitespace`, with explicit fuel.
The branch structure mirrors the `switch` in `scanner.c` exactly; note that
the block-comment guard in the source reads `peek() == '*'`, with `peek()`
still yielding the `'/'` this `case` is dispatched on.  The source's
unterminated-comment check calls `errorToken` and discards the resulting
token, so it has no effect on the scanner state and does not appear here. -/
def skipWhitespaceFuel : Nat → Scanner → Scanner
  | 0, s => s
  | fuel + 1, s =>
    let c := peek s
    if c = ' ' ∨ c = '\r' ∨ c = '\t' then
      skipWhitespaceFuel fuel (adv s)
    else if c = '\n' then
      skipWhitespaceFuel fuel (adv { s with line := s.line + 1 })
    else if c = '/' then
      if peekNext s = '/' then
        skipWhitespaceFuel fuel (lineComment s)
      else if peek s = '*' then
        skipWhitespaceFuel fuel (blockComment (adv (adv s)))
      else s
    else s

/-- `skipWhitespace` from `scanner.c`.  Every continuing iteration strictly
advances `current` and requires `current < source.length`, so the fuel
bound covers all iterations. -/
def skipWhitespace (s : Scanner) : Scanner :=
  skipWhitespaceFuel (s.source.length + 1 - s.current) s

/-- `checkKeyword` from `scanner.c`: length test, then a `memcmp` of the
`length` bytes at `scanner.start + start` against `rest`. -/
def checkKeyword (start length : Nat) (rest : List Char) (type : TokenType)
    (s : Scanner) : TokenType :=
  if s.current - s.start = start + length ∧
      (s.source.drop (s.start + start)).take length = rest then
    type
  else
    .TOKEN_IDENTIFIER

/-- `identifierType` from `scanner.c`: first-character dispatch into
`checkKeyword`. -/
def identifierType (s : Scanner) : TokenType :=
  match charAt s.source s.start with
  | 'a' => checkKeyword 1 2 "nd".toList .TOKEN_AND s
  | 'c' => checkKeyword 1 4 "lass".toList .TOKEN_CLASS s
  | 'e' => checkKeyword 1 3 "lse".toList .TOKEN_ELSE s
  | 'f' =>
    if s.current - s.start > 1 then
      match charAt s.source (s.start + 1) with
      | 'a' => checkKeyword 2 3 "lse".toList .TOKEN_FALSE s
      | 'o' => checkKeyword 2 1 "r".toList .TOKEN_FOR s
      | 'n' => checkKeyword 2 0 "".toList .TOKEN_FUN s
      | _ => .TOKEN_IDENTIFIER
    else .TOKEN_IDENTIFIER
  | 'i' => checkKeyword 1 1 "f".toList .TOKEN_IF s
  | 'n' => checkKeyword 1 3 "ull".toList .TOKEN_NIL s
  | 'o' => checkKeyword 1 1 "r".toList .TOKEN_OR s
  | 'p' => checkKeyword 1 6 "rintln".toList .TOKEN_PRINT s
  | 'r' => checkKeyword 1 5 "eturn".toList .TOKEN_RETURN s
  | 's' => checkKeyword 1 4 "uper".toList .TOKEN_SUPER s
  | 't' =>
    if s.current - s.start > 1 then
      match charAt s.source (s.start + 1) with
      | 'h' => checkKeyword 2 2 "is".toList .TOKEN_THIS s
      | 'r' => checkKeyword 2 2 "ue".toList .TOKEN_TRUE s
      | _ => .TOKEN_IDENTIFIER
    else .TOKEN_IDENTIFIER
  | 'v' => checkKeyword 1 2 "ar".toList .TOKEN_VAR s
  | 'w' => checkKeyword 1 4 "hile".toList .TOKEN_WHILE s
  | _ => .TOKEN_IDENTIFIER

/-- The `while (isAlpha(peek()) || isDigit(peek())) advance();` loop of
`identifier()`, with explicit fuel. -/
def identLoopFuel : Nat → Scanner → Scanner
  | 0, s => s
  | fuel + 1, s =>
    if isAlpha (peek s) ∨ isDigit (peek s) then identLoopFuel fuel (adv s) else s

def identLoop (s : Scanner) : Scanner :=
  identLoopFuel (s.source.length - s.current) s

/-- `identifier()` from `scanner.c`. -/
def identifier (s : Scanner) : Token × Scanner :=
  let s := identLoop s
  (makeToken (identifierType s) s, s)

/-- The `while (isDigit(peek())) advance();` loop of `number()`. -/
def digitLoopFuel : Nat → Scanner → Scanner
  | 0, s => s
  | fuel + 1, s =>
    if isDigit (peek s) then digitLoopFuel fuel (adv s) else s

def digitLoop (s : Scanner) : Scanner :=
  digitLoopFuel (s.source.length - s.current) s

/-- `number()` from `scanner.c`. -/
def number (s : Scanner) : Token × Scanner :=
  let s := digitLoop s
  let s := if peek s = '.' ∧ isDigit (peekNext s) then digitLoop (adv s) else s
  (makeToken .TOKEN_NUMBER s, s)

/-- The `while (peek() != '"' && !isAtEnd()) { ... }` loop of `string()`. -/
def stringLoopFuel : Nat → Scanner → Scanner
  | 0, s => s
  | fuel + 1, s =>
    if peek s ≠ '"' ∧ ¬ isAtEnd s then
      stringLoopFuel fuel (adv (if peek s = '\n' then { s with line := s.line + 1 } else s))
    else s

def stringLoop (s : Scanner) : Scanner :=
  stringLoopFuel (s.source.length - s.current) s

/-- `string()` from `scanner.c`. -/
def string (s : Scanner) : Token × Scanner :=
  let s := stringLoop s
  if isAtEnd s then (errorToken "Unterminated string." s, s)
  else (makeToken .TOKEN_STRING (adv s), adv s)

/-- `scanToken` from `scanner.c`.  The `switch` on the consumed character is
rendered as an if-chain. -/
def scanToken (s0 : Scanner) : Token × Scanner :=
  let s := skipWhitespace s0
  let s := { s with start := s.current }
  if isAtEnd s then (makeToken .TOKEN_EOF s, s)
  else
    let c := peek s
    let s := adv s
    if isAlpha c then identifier s
    else if isDigit c then number s
    else if c = '(' then (makeToken .TOKEN_LEFT_PAREN s, s)
    else if c = ')' then (makeToken .TOKEN_RIGHT_PAREN s, s)
    else if c = '{' then (makeToken .TOKEN_LEFT_BRACE s, s)
    else if c = '}' then (makeToken .TOKEN_RIGHT_BRACE s, s)
    else if c = ';' then (makeToken .TOKEN_SEMICOLON s, s)
    else if c = ',' then (makeToken .TOKEN_COMMA s, s)
    else if c = '.' then (makeToken .TOKEN_DOT s, s)
    else if c = '-' then (makeToken .TOKEN_MINUS s, s)
    else if c = '+' then (makeToken .TOKEN_PLUS s, s)
    else if c = '/' then (makeToken .TOKEN_SLASH s, s)
    else if c = '*' then (makeToken .TOKEN_ASTERISK s, s)
    else if c = '!' then
      let (m, s) := matchCh '=' s
      (makeToken (if m then .TOKEN_BANG_EQUAL else .TOKEN_BANG) s, s)
    else if c = '=' then
      let (m, s) := matchCh '=' s
      (makeToken (if m then .TOKEN_EQUAL_EQUAL else .TOKEN_EQUAL) s, s)
    else if c = '<' then
      let (m, s) := matchCh '=' s
      (makeToken (if m then .TOKEN_LESS_EQUAL else .TOKEN_LESS) s, s)
    else if c = '>' then
      let (m, s) := matchCh '=' s
      (makeToken (if m then .TOKEN_GREATER_EQUAL else .TOKEN_GREATER) s, s)
    else if c = '"' then string s
    else (errorToken "Unexpected character." s, s)

/-! ## The virtual machine (`src/vm.c`) -/

/-- `Value` is `double` in `value.h` (spec §3: a numeric floating-point
scalar).  It is modelled as `ℚ` here: every claim settled below concerns the
stack discipline, operand ordering, or constant indexing of the VM, none of
which depends on rounding behavior. -/
abbrev Value := ℚ

/-- Modelled from the spec: `vm.h` is not in the snapshot; spec §3 gives the
fixed stack capacity constant (`e.g. 256 slots`). -/
def STACK_MAX : Nat := 256

/-- Modelled from the spec: `chunk.h` is not in the snapshot.  Opcode byte
values follow the spec §4.2 instruction table order with C's default enum
numbering. -/
def OP_CONSTANT : Nat := 0

def OP_CONSTANT_LONG : Nat := 1

def OP_ADD : Nat := 2

def OP_SUBTRACT : Nat := 3

def OP_MULTIPLY : Nat := 4

def OP_DIVIDE : Nat := 5

def OP_NEGATE : Nat := 6

def OP_RETURN : Nat := 7

/-- Modelled from the spec: `vm.h` is not in the snapshot; spec §4.2 gives a
success marker plus reserved failure markers in the result type. -/
inductive InterpretResult where
  | INTERPRET_OK
  | INTERPRET_COMPILE_ERROR
  | INTERPRET_RUNTIME_ERROR
  deriving DecidableEq, Repr

/-- `Chunk`: code bytes (opcodes and operands interleaved, each byte < 256 in
C where `code` is `uint8_t*`) plus the constant pool. -/
structure Chunk where
  code : List Nat
  constants : List Value
  deriving DecidableEq, Repr

/-- `VM` from `vm.h`/`vm.c`: the chunk being executed, the instruction
pointer (a `uint8_t*` into `chunk->code`, modelled as an offset), and the
fixed-capacity value stack.  The abstract content of `stack[0..] ++ stackTop`
is the list of occupied slots, top of stack at the end; `stackTop` is
`stack base + stack.length`. -/
structure VM where
  chunk : Chunk
  ip : Nat
  stack : List Value
  deriving DecidableEq, Repr

/-- `resetStack` from `vm.c`: `vm.stackTop = vm.stack`. -/
def resetStack (vm : VM) : VM :=
  { vm with stack := [] }

/-- `initVM` from `vm.c`. -/
def initVM (vm : VM) : VM :=
  resetStack vm

/-- `push` from `vm.c`.  The overflow check compares the top pointer against
`vm.stack + STACK_MAX`, i.e. it trips exactly when `stack.length > STACK_MAX`;
a fatal diagnostic-and-exit is modelled as an `Except.error`. -/
def push (value : Value) (vm : VM) : Except String VM :=
  if vm.stack.length > STACK_MAX then .error "Stack overflow"
  else .ok { vm with stack := vm.stack ++ [value] }

/-- `pop` from `vm.c`: underflow check against the stack base before any
mutation, then decrement `stackTop` and return the value it passes. -/
def pop (vm : VM) : Except String (Value × VM) :=
  if h : vm.stack.length = 0 then .error "Stack underflow!"
  else
    .ok (vm.stack.getLast (fun hnil => h (by simp [hnil])),
         { vm with stack := vm.stack.dropLast })

/-- `readLongIndex` from `vm.c`: three `READ_BYTE`s ORed into a 24-bit index,
first byte most significant.  `READ_BYTE` is `*vm.ip++`; reading past the end
of the code array is undefined behavior in C and yields `none` here. -/
def readByte (vm : VM) : Option (Nat × VM) :=
  match vm.chunk.code[vm.ip]? with
  | some b => some (b, { vm with ip := vm.ip + 1 })
  | none => none

def readLongIndex (vm : VM) : Option (Nat × VM) := do
  let (b1, vm) ← readByte vm
  let (b2, vm) ← readByte vm
  let (b3, vm) ← readByte vm
  some (((b1 <<< 16) ||| (b2 <<< 8)) ||| b3, vm)

/-- Result of one iteration of `run`'s fetch-decode-execute loop. -/
inductive StepResult where
  /-- the `for (;;)` loop continues with the next instruction -/
  | next (vm : VM)
  /-- a `return` out of `run` -/
  | done (res : InterpretResult) (vm : VM)
  /-- `exit(1)` after a diagnostic (stack overflow/underflow) -/
  | fatal (msg : String)
  /-- an out-of-bounds read (undefined behavior in C) -/
  | stuck
  deriving DecidableEq, Repr

/-- `BINARY_OP(op)` from `vm.c`: `b = pop(); a = pop(); push(a op b)`. -/
def binaryOp (op : Value → Value → Value) (vm : VM) : Except String VM := do
  let (b, vm) ← pop vm
  let (a, vm) ← pop vm
  push (op a b) vm

def exceptToStep : Except String VM → StepResult
  | .ok vm => .next vm
  | .error msg => .fatal msg

/-- The body of `run`'s `for (;;)` loop in `vm.c`: fetch one opcode byte and
dispatch on it.  An opcode matching no `case` of the `switch` falls through
the `switch` and the loop continues (there is no `default` branch). -/
def step (vm : VM) : StepResult :=
  match readByte vm with
  | none => .stuck
  | some (instruction, vm) =>
    if instruction = OP_CONSTANT then
      match readByte vm with
      | none => .stuck
      | some (b, vm) =>
        match vm.chunk.constants[b]? with
        | none => .stuck
        | some constant => exceptToStep (push constant vm)
    else if instruction = OP_CONSTANT_LONG then
      match readLongIndex vm with
      | none => .stuck
      | some (index, vm) =>
        match vm.chunk.constants[index]? with
        | none => .stuck
        | some constant => exceptToStep (push constant vm)
    else if instruction = OP_ADD then exceptToStep (binaryOp (· + ·) vm)
    else if instruction = OP_SUBTRACT then exceptToStep (binaryOp (· - ·) vm)
    else if instruction = OP_MULTIPLY then exceptToStep (binaryOp (· * ·) vm)
    else if instruction = OP_DIVIDE then exceptToStep (binaryOp (· / ·) vm)
    else if instruction = OP_NEGATE then
      exceptToStep (do
        let (v, vm) ← pop vm
        push (-v) vm)
    else if instruction = OP_RETURN then .done .INTERPRET_OK vm
    else .next vm

/-- `run` from `vm.c`: iterate `step` until a `return` or a fatal error.
`fuel` bounds the number of iterations; exhausted fuel surfaces as `.next`
(the machine is still running). -/
def run : Nat → VM → StepResult
  | 0, vm => .next vm
  | fuel + 1, vm =>
    match step vm with
    | .next vm => run fuel vm
    | r => r

/-- `interpret` from `vm.c`: bind the chunk, set the instruction pointer to
the start of its code, and run.  Note that it does not touch the stack. -/
def interpret (fuel : Nat) (vm : VM) (chunk : Chunk) : StepResult :=
  run fuel { vm with chunk := chunk, ip := 0 }

/-- The stack of the VM state a finished (`OP_RETURN`) execution returns. -/
def stackOf : StepResult → Option (List Value)
  | .done _ vm => some vm.stack
  | _ => none

/-- Iterated `push`, for reasoning about consecutive pushes. -/
def pushList (vs : List Value) (vm : VM) : Except String VM :=
  vs.foldlM (fun vm v => push v vm) vm

/-- A VM fresh out of `initVM`, bound to an empty chunk. -/
def vm0 : VM := { chunk := { code := [], constants := [] }, ip := 0, stack := [] }

/-- A VM state with a leftover value on its stack from an earlier run. -/
def vmDirty : VM := { chunk := { code := [], constants := [] }, ip := 0, stack := [5] }

/-- A chunk consisting of a single `OP_RETURN`. -/
def retChunk : Chunk := { code := [OP_RETURN], constants := [] }

/-! ## Derived scanner notions used by the keyword claims -/

/-- The token type produced by scanning source text `L` from a fresh
scanner. -/
def scanType (L : List Char) : TokenType :=
  (scanToken (initScanner L)).1.type

/-- The classification `identifierType` gives to a whole identifier lexeme
`L` (cursor state exactly as `identifier()` leaves it after consuming `L`
from position 0). -/
def classify (L : List Char) : TokenType :=
  identifierType { source := L, start := 0, current := L.length, line := 1 }

/-- The keyword table actually implemented by `identifierType` in
`scanner.c`: note the spelling `fn` for `TOKEN_FUN` (reached via
`checkKeyword(2, 0, "")` under `'f'`/`'n'`), where the spec lists `fun`. -/
def kwPairs : List (List Char × TokenType) :=
  [("and".toList, .TOKEN_AND), ("class".toList, .TOKEN_CLASS), ("else".toList, .TOKEN_ELSE),
   ("false".toList, .TOKEN_FALSE), ("for".toList, .TOKEN_FOR), ("fn".toList, .TOKEN_FUN),
   ("if".toList, .TOKEN_IF), ("null".toList, .TOKEN_NIL), ("or".toList, .TOKEN_OR),
   ("println".toList, .TOKEN_PRINT), ("return".toList, .TOKEN_RETURN),
   ("super".toList, .TOKEN_SUPER), ("this".toList, .TOKEN_THIS), ("true".toList, .TOKEN_TRUE),
   ("var".toList, .TOKEN_VAR), ("while".toList, .TOKEN_WHILE)]

/-- All case variants of a word: every way of replacing some of its letters
by their upper-case counterparts. -/
def caseVariants : List Char → List (List Char)
  | [] => [[]]
  | c :: cs => (caseVariants cs).map (c :: ·) ++ (caseVariants cs).map (c.toUpper :: ·)

/-! ## Helper lemmas -/

theorem push_ok (v : Value) (vm : VM) (h : vm.stack.length ≤ STACK_MAX) :
    push v vm = .ok { vm with stack := vm.stack ++ [v] } := by
  unfold push
  rw [if_neg (by omega)]

theorem push_error (v : Value) (vm : VM) (h : STACK_MAX < vm.stack.length) :
    push v vm = .error "Stack overflow" := by
  unfold push
  rw [if_pos h]

theorem pop_concat (vm : VM) (l : List Value) (v : Value) (h : vm.stack = l ++ [v]) :
    pop vm = .ok (v, { vm with stack := l }) := by
  unfold pop
  rw [dif_neg (by simp [h])]
  have h1 : ∀ hp : vm.stack ≠ [], vm.stack.getLast hp = v := by
    intro hp
    simp only [h]
    exact List.getLast_concat l
  have h2 : vm.stack.dropLast = l := by
    simp only [h]
    exact List.dropLast_concat
  rw [h1, h2]

theorem pop_nil (vm : VM) (h : vm.stack = []) : pop vm = .error "Stack underflow!" := by
  unfold pop
  rw [dif_pos (by simp [h])]

theorem binaryOp_eq (op : Value → Value → Value) (vm : VM) (rest : List Value) (a b : Value)
    (hstack : vm.stack = rest ++ [a, b]) (hcap : rest.length ≤ STACK_MAX) :
    binaryOp op vm = .ok { vm with stack := rest ++ [op a b] } := by
  have h1 : vm.stack = (rest ++ [a]) ++ [b] := by simp [hstack]
  unfold binaryOp
  rw [pop_concat vm (rest ++ [a]) b h1]
  show (pop { vm with stack := rest ++ [a] }).bind _ = _
  rw [pop_concat { vm with stack := rest ++ [a] } rest a rfl]
  show push (op a b) { vm with stack := rest } = _
  rw [push_ok (op a b) { vm with stack := rest } (by simpa using hcap)]

theorem pushList_ok (vs : List Value) (vm : VM)
    (h : vm.stack.length + vs.length ≤ STACK_MAX + 1) :
    pushList vs vm = .ok { vm with stack := vm.stack ++ vs } := by
  induction vs generalizing vm with
  | nil =>
    show pure vm = _
    simp only [List.append_nil]
    rfl
  | cons v vs ih =>
    show (push v vm).bind _ = _
    rw [push_ok v vm (by simp at h; omega)]
    show pushList vs { vm with stack := vm.stack ++ [v] } = _
    rw [ih { vm with stack := vm.stack ++ [v] } (by simp at h ⊢; omega)]
    simp

/-! ## Claim C5: push overflow boundary -/

/-- C5: `push` fails fatally exactly when the top-of-stack pointer
(`stack base + stack.length`) exceeds `stack base + STACK_MAX`, i.e. exactly
when the stack already holds more than `STACK_MAX` values; consequently any
sequence of at most `STACK_MAX + 1` consecutive pushes onto an empty stack
succeeds without the overflow branch ever tripping. -/
theorem push_overflow_boundary :
    (∀ (vm : VM) (v : Value),
      push v vm = .error "Stack overflow" ↔ STACK_MAX < vm.stack.length) ∧
    (∀ vs : List Value, vs.length ≤ STACK_MAX + 1 →
      pushList vs vm0 = .ok { vm0 with stack := vs }) := by
  constructor
  · intro vm v
    constructor
    · intro h
      by_contra hlt
      rw [push_ok v vm (by omega)] at h
      exact Except.noConfusion h
    · exact push_error v vm
  · intro vs hlen
    have := pushList_ok vs vm0 (by simpa [vm0] using hlen)
    simpa [vm0] using this

/-- C5 witness: three pushes onto the empty stack succeed. -/
theorem push_overflow_boundary_witness :
    pushList [(1 : Value), 2, 3] vm0 = .ok { vm0 with stack := [1, 2, 3] } :=
  push_overflow_boundary.2 [(1 : Value), 2, 3] (by decide)

/-! ## Claim C6: pop underflow -/

/-- C6: `pop` on an empty stack reports the underflow condition and
terminates (modelled as `Except.error`, carrying no successor state: the VM
stack is not mutated on this path — the check precedes the `stackTop`
decrement in the source); `pop` on a non-empty stack removes and returns the
top value. -/
theorem pop_underflow_and_top :
    (∀ vm : VM, vm.stack = [] → pop vm = .error "Stack underflow!") ∧
    (∀ (vm : VM) (l : List Value) (v : Value), vm.stack = l ++ [v] →
      pop vm = .ok (v, { vm with stack := l })) :=
  ⟨pop_nil, pop_concat⟩

/-- C6 witness: popping `[1, 2]` returns `2` leaving `[1]`, and popping the
empty stack underflows. -/
theorem pop_underflow_and_top_witness :
    pop { vm0 with stack := [(1 : Value), 2] } = .ok (2, { vm0 with stack := [(1 : Value)] }) ∧
    pop vm0 = .error "Stack underflow!" :=
  ⟨pop_underflow_and_top.2 _ [(1 : Value)] 2 rfl, pop_underflow_and_top.1 vm0 rfl⟩

/-! ## Claim C10: unknown opcodes are skipped -/

/-- C10: a fetched opcode byte matching none of the eight defined opcodes
falls through the `switch` (which has no `default` case): the dispatch loop
neither terminates nor reports an error, it just continues fetching at the
next byte with the rest of the VM state unchanged. -/
theorem unknown_opcode_skipped (vm : VM) (b : Nat)
    (hb : vm.chunk.code[vm.ip]? = some b) (hbyte : b < 256)
    (h0 : b ≠ OP_CONSTANT) (h1 : b ≠ OP_CONSTANT_LONG) (h2 : b ≠ OP_ADD)
    (h3 : b ≠ OP_SUBTRACT) (h4 : b ≠ OP_MULTIPLY) (h5 : b ≠ OP_DIVIDE)
    (h6 : b ≠ OP_NEGATE) (h7 : b ≠ OP_RETURN) :
    step vm = .next { vm with ip := vm.ip + 1 } ∧
    ∀ fuel, run (fuel + 1) vm = run fuel { vm with ip := vm.ip + 1 } := by
  have hstep : step vm = .next { vm with ip := vm.ip + 1 } := by
    unfold step readByte
    rw [hb]
    simp only [h0, h1, h2, h3, h4, h5, h6, h7, if_false, ite_false, reduceCtorEq]
  refine ⟨hstep, fun fuel => ?_⟩
  show (match step vm with | .next vm => run fuel vm | r => r) = _
  rw [hstep]

/-- C10 witness: byte 42 is not an opcode; the VM skips it. -/
theorem unknown_opcode_skipped_witness :
    step { vm0 with chunk := { code := [42], constants := [] } } =
      .next { vm0 with chunk := { code := [42], constants := [] }, ip := 1 } :=
  (unknown_opcode_skipped { vm0 with chunk := { code := [42], constants := [] } } 42
    rfl (by decide) (by decide) (by decide) (by decide) (by decide) (by decide)
    (by decide) (by decide) (by decide)).1

/-! ## Claim C3: interpret does not clear the stack -/

/-- C3 counterexample: `interpret` does **not** clear the value stack.
Interpreting a bare `OP_RETURN` chunk from a state with a leftover value
finishes with that value still on the stack — `OP_RETURN` itself never
touches the stack, so the stack was not reset at the start of the call
either (the claim would force the final stack to be `[]`). -/
theorem interpret_not_cleared_cex :
    stackOf (interpret 1 vmDirty retChunk) = some [5] ∧
    some [(5 : Value)] ≠ some ([] : List Value) :=
  ⟨rfl, by decide⟩

/-- C3 amended: the stack is cleared by `initVM` (via `resetStack`), not by
`interpret`; `interpret` only binds the chunk and resets the instruction
pointer, leaving whatever values an earlier call left on the stack in
place. -/
theorem interpret_preserves_stack_initVM_clears (vm : VM) :
    interpret 1 vm retChunk =
      .done .INTERPRET_OK { vm with chunk := retChunk, ip := 1 } ∧
    (initVM vm).stack = [] := by
  constructor
  · show run 1 { vm with chunk := retChunk, ip := 0 } = _
    rfl
  · rfl

/-! ## Claim C7: operand order of binary instructions -/

/-- Dispatching one binary instruction: fetch the opcode, then
`BINARY_OP(op)`. -/
theorem step_binary (vm : VM) (opcode : Nat) (op : Value → Value → Value)
    (hop : vm.chunk.code[vm.ip]? = some opcode)
    (hsel : (opcode = OP_ADD ∧ op = (· + ·)) ∨ (opcode = OP_SUBTRACT ∧ op = (· - ·)) ∨
      (opcode = OP_MULTIPLY ∧ op = (· * ·)) ∨ (opcode = OP_DIVIDE ∧ op = (· / ·)))
    (rest : List Value) (a b : Value)
    (hstack : vm.stack = rest ++ [a, b]) (hcap : rest.length ≤ STACK_MAX) :
    step vm = .next { vm with ip := vm.ip + 1, stack := rest ++ [op a b] } := by
  have hbin : binaryOp op { vm with ip := vm.ip + 1 } =
      .ok { vm with ip := vm.ip + 1, stack := rest ++ [op a b] } :=
    binaryOp_eq op { vm with ip := vm.ip + 1 } rest a b hstack hcap
  unfold step readByte
  rw [hop]
  rcases hsel with ⟨rfl, rfl⟩ | ⟨rfl, rfl⟩ | ⟨rfl, rfl⟩ | ⟨rfl, rfl⟩ <;>
    simp only [OP_CONSTANT, OP_CONSTANT_LONG, OP_ADD, OP_SUBTRACT, OP_MULTIPLY, OP_DIVIDE,
      reduceIte, Nat.reduceEqDiff] <;>
    rw [hbin] <;> rfl

/-- C7: for each of the four binary instructions, the value popped first is
the one that was on top of the stack (`b`, pushed second) and becomes the
right operand; the value popped second (`a`) becomes the left operand, so
`OP_SUBTRACT` pushes `a - b` and `OP_DIVIDE` pushes `a / b`. -/
theorem binary_operand_order (vm : VM) (rest : List Value) (a b : Value)
    (hstack : vm.stack = rest ++ [a, b]) (hcap : rest.length ≤ STACK_MAX) :
    (vm.chunk.code[vm.ip]? = some OP_ADD →
      step vm = .next { vm with ip := vm.ip + 1, stack := rest ++ [a + b] }) ∧
    (vm.chunk.code[vm.ip]? = some OP_SUBTRACT →
      step vm = .next { vm with ip := vm.ip + 1, stack := rest ++ [a - b] }) ∧
    (vm.chunk.code[vm.ip]? = some OP_MULTIPLY →
      step vm = .next { vm with ip := vm.ip + 1, stack := rest ++ [a * b] }) ∧
    (vm.chunk.code[vm.ip]? = some OP_DIVIDE →
      step vm = .next { vm with ip := vm.ip + 1, stack := rest ++ [a / b] }) :=
  ⟨fun hop => step_binary vm OP_ADD _ hop (.inl ⟨rfl, rfl⟩) rest a b hstack hcap,
   fun hop => step_binary vm OP_SUBTRACT _ hop (.inr (.inl ⟨rfl, rfl⟩)) rest a b hstack hcap,
   fun hop => step_binary vm OP_MULTIPLY _ hop (.inr (.inr (.inl ⟨rfl, rfl⟩))) rest a b hstack hcap,
   fun hop => step_binary vm OP_DIVIDE _ hop (.inr (.inr (.inr ⟨rfl, rfl⟩))) rest a b hstack hcap⟩

/-- C7 witness: with 7 pushed first and 2 on top, `OP_SUBTRACT` leaves `5`
(7 − 2), not `-5`. -/
theorem binary_operand_order_witness :
    step { chunk := { code := [OP_SUBTRACT], constants := [] }, ip := 0, stack := [7, 2] } =
      .next { chunk := { code := [OP_SUBTRACT], constants := [] }, ip := 1, stack := [(5 : Value)] } := by
  have h := (binary_operand_order
    { chunk := { code := [OP_SUBTRACT], constants := [] }, ip := 0, stack := [7, 2] }
    [] 7 2 rfl (by decide)).2.1 rfl
  simpa [show (7 : Value) - 2 = 5 from by norm_num] using h

/-! ## Claim C8: CONSTANT_LONG reads a 24-bit big-endian index -/

/-- ORing a value shifted left by `k` bits with a `k`-bit value is the
base-`2 ^ k` digit combination. -/
theorem shiftLeft_lor_eq (a b k : Nat) (hb : b < 2 ^ k) :
    (a <<< k) ||| b = a * 2 ^ k + b := by
  apply Nat.eq_of_testBit_eq
  intro i
  rw [Nat.testBit_lor, Nat.testBit_shiftLeft,
    show a * 2 ^ k + b = 2 ^ k * a + b by ring,
    Nat.testBit_mul_pow_two_add a hb i]
  by_cases hik : i < k
  · have : ¬ (i ≥ k) := by omega
    simp [hik, this]
  · have hge : i ≥ k := by omega
    have hbf : b.testBit i = false :=
      Nat.testBit_eq_false_of_lt (lt_of_lt_of_le hb (Nat.pow_le_pow_right (by omega) hge))
    simp [hik, hge, hbf]

/-- The value `readLongIndex` computes from three bytes: first byte most
significant. -/
theorem readLongIndex_value (vm : VM) (b1 b2 b3 : Nat)
    (h1 : vm.chunk.code[vm.ip]? = some b1)
    (h2 : vm.chunk.code[vm.ip + 1]? = some b2)
    (h3 : vm.chunk.code[vm.ip + 2]? = some b3)
    (hb1 : b1 < 256) (hb2 : b2 < 256) (hb3 : b3 < 256) :
    readLongIndex vm = some (b1 * 65536 + b2 * 256 + b3, { vm with ip := vm.ip + 3 }) := by
  have hinner : (b2 <<< 8) ||| b3 = b2 * 256 + b3 := by
    have := shiftLeft_lor_eq b2 b3 8 (by norm_num; omega)
    simpa using this
  have houter : (b1 <<< 16) ||| (b2 * 256 + b3) = b1 * 65536 + (b2 * 256 + b3) := by
    have := shiftLeft_lor_eq b1 (b2 * 256 + b3) 16 (by norm_num; omega)
    simpa using this
  unfold readLongIndex readByte
  rw [h1]
  simp only [Option.bind_eq_bind, Option.some_bind]
  rw [h2]
  simp only [Option.some_bind]
  rw [show vm.ip + 1 + 1 = vm.ip + 2 from rfl, h3]
  simp only [Option.some_bind, Option.some.injEq, Prod.mk.injEq]
  refine ⟨by rw [Nat.lor_assoc, hinner, houter]; ring, trivial⟩

/-- C8: the VM decodes the three operand bytes of `OP_CONSTANT_LONG` as a
24-bit big-endian unsigned index (first byte most significant) and pushes
`constants[index]`, advancing `ip` past the opcode and its three operand
bytes. -/
theorem constant_long_big_endian (vm : VM) (b1 b2 b3 : Nat) (v : Value)
    (hop : vm.chunk.code[vm.ip]? = some OP_CONSTANT_LONG)
    (h1 : vm.chunk.code[vm.ip + 1]? = some b1)
    (h2 : vm.chunk.code[vm.ip + 2]? = some b2)
    (h3 : vm.chunk.code[vm.ip + 3]? = some b3)
    (hb1 : b1 < 256) (hb2 : b2 < 256) (hb3 : b3 < 256)
    (hconst : vm.chunk.constants[b1 * 65536 + b2 * 256 + b3]? = some v)
    (hcap : vm.stack.length ≤ STACK_MAX) :
    step vm = .next { vm with ip := vm.ip + 4, stack := vm.stack ++ [v] } := by
  have hread : readLongIndex { vm with ip := vm.ip + 1 } =
      some (b1 * 65536 + b2 * 256 + b3, { vm with ip := vm.ip + 1 + 3 }) := by
    apply readLongIndex_value <;> simp [h1, h2, h3, hb1, hb2, hb3, Nat.add_assoc]
  unfold step readByte
  rw [hop]
  show (if OP_CONSTANT_LONG = OP_CONSTANT then _ else _) = _
  rw [if_neg (by decide), if_pos rfl, hread]
  show (match vm.chunk.constants[b1 * 65536 + b2 * 256 + b3]? with
    | none => StepResult.stuck
    | some constant => exceptToStep (push constant { vm with ip := vm.ip + 1 + 3 })) = _
  rw [hconst]
  show exceptToStep (push v { vm with ip := vm.ip + 4 }) = _
  rw [push_ok v _ (by simpa using hcap)]
  rfl

/-- C8 witness: operand bytes `0x00 0x01 0x01` select index 257 of a
258-entry constant table and push its value. -/
theorem constant_long_big_endian_witness :
    step { chunk := { code := [OP_CONSTANT_LONG, 0, 1, 1],
                      constants := (List.range 258).map (fun i => (i : Value)) },
           ip := 0, stack := [] } =
      .next { chunk := { code := [OP_CONSTANT_LONG, 0, 1, 1],
                         constants := (List.range 258).map (fun i => (i : Value)) },
              ip := 4, stack := [(257 : Value)] } := by
  have h := constant_long_big_endian
    { chunk := { code := [OP_CONSTANT_LONG, 0, 1, 1],
                 constants := (List.range 258).map (fun i => (i : Value)) },
      ip := 0, stack := [] }
    0 1 1 257 rfl rfl rfl rfl (by decide) (by decide) (by decide) (by rfl) (by decide)
  simpa using h

/-! ## Scanner helper lemmas -/

theorem peek_of_atEnd {s : Scanner} (h : isAtEnd s = true) : peek s = '\x00' := by
  simpa [isAtEnd, peek, beq_iff_eq] using h

theorem skipWhitespaceFuel_atEnd (f : Nat) (s : Scanner) (h : peek s = '\x00') :
    skipWhitespaceFuel f s = s := by
  cases f with
  | zero => rfl
  | succ n =>
    simp only [skipWhitespaceFuel, h]
    rw [if_neg (by decide), if_neg (by decide), if_neg (by decide)]

/-- With the cursor on the terminating null byte, `scanToken` only moves
`start` up to `current` and returns the end-of-file token. -/
theorem scanToken_atEnd (s : Scanner) (h : isAtEnd s = true) :
    scanToken s = (makeToken .TOKEN_EOF { s with start := s.current },
                   { s with start := s.current }) := by
  have hsw : skipWhitespace s = s :=
    skipWhitespaceFuel_atEnd _ s (peek_of_atEnd h)
  unfold scanToken
  rw [hsw]
  exact if_pos h

theorem skipWhitespaceFuel_of_alpha (f : Nat) (s : Scanner)
    (h : isAlpha (peek s) = true) : skipWhitespaceFuel f s = s := by
  cases f with
  | zero => rfl
  | succ n =>
    simp only [skipWhitespaceFuel]
    rw [if_neg (by rintro (hc | hc | hc) <;> exact absurd (hc ▸ h) (by decide)),
        if_neg (fun hc => absurd (hc ▸ h) (by decide)),
        if_neg (fun hc => absurd (hc ▸ h) (by decide))]

/-- When every source character is an identifier character, the
`identifier()` loop consumes the rest of the source. -/
theorem identLoopFuel_consumes (f : Nat) : ∀ (s : Scanner),
    (∀ c ∈ s.source, isAlpha c = true ∨ isDigit c = true) →
    s.current + f = s.source.length →
    identLoopFuel f s = { s with current := s.source.length } := by
  induction f with
  | zero =>
    intro s hall hcur
    show s = _
    rw [← hcur]
    simp
  | succ n ih =>
    intro s hall hcur
    have hlt : s.current < s.source.length := by omega
    have hpeek : peek s ∈ s.source := by
      show charAt s.source s.current ∈ s.source
      unfold charAt
      rw [List.getD_eq_getElem s.source _ hlt]
      exact List.getElem_mem hlt
    have hguard : isAlpha (peek s) = true ∨ isDigit (peek s) = true := hall _ hpeek
    simp only [identLoopFuel]
    rw [if_pos hguard]
    rw [ih (adv s) (by exact hall) (by simp [adv]; omega)]
    rfl

/-- Scanning a source that is one whole identifier lexeme (alpha first
character, alphanumeric throughout) consumes it all and classifies it with
`identifierType`. -/
theorem scanToken_ident (L : List Char) (h0 : isAlpha (charAt L 0) = true)
    (hall : ∀ c ∈ L, isAlpha c = true ∨ isDigit c = true) :
    scanToken (initScanner L) =
      (makeToken (identifierType { source := L, start := 0, current := L.length, line := 1 })
         { source := L, start := 0, current := L.length, line := 1 },
       { source := L, start := 0, current := L.length, line := 1 }) := by
  have hne : L ≠ [] := by
    intro hL
    rw [hL] at h0
    exact absurd h0 (by decide)
  have hlen : 1 ≤ L.length := by
    cases L with
    | nil => exact absurd rfl hne
    | cons c cs => simp
  have hsw : skipWhitespace { source := L, start := 0, current := 0, line := 1 } =
      { source := L, start := 0, current := 0, line := 1 } :=
    skipWhitespaceFuel_of_alpha _ _ h0
  have hae : isAtEnd ({ source := L, start := 0, current := 0, line := 1 } : Scanner) ≠ true := by
    intro hc
    have hz : charAt L 0 = '\x00' := by
      simpa [isAtEnd, beq_iff_eq] using hc
    rw [hz] at h0
    exact absurd h0 (by decide)
  have hloop : identLoop (adv { source := L, start := 0, current := 0, line := 1 }) =
      { source := L, start := 0, current := L.length, line := 1 } := by
    unfold identLoop
    exact identLoopFuel_consumes _ _ (by exact hall) (by simp [adv]; omega)
  unfold scanToken initScanner
  rw [hsw]
  simp only []
  rw [if_neg hae]
  simp only [peek]
  rw [if_pos h0]
  unfold identifier
  rw [hloop]

theorem scanType_eq_classify (L : List Char) (h0 : isAlpha (charAt L 0) = true)
    (hall : ∀ c ∈ L, isAlpha c = true ∨ isDigit c = true) :
    scanType L = classify L := by
  unfold scanType
  rw [scanToken_ident L h0 hall]
  rfl

/-- Scanning a keyword followed by further identifier characters yields
whatever `identifierType` makes of the longer lexeme. -/
theorem scanType_append_ident (k : List Char) (c : Char) (t : List Char)
    (hk : ∀ x ∈ k, isAlpha x = true) (hne : k ≠ [])
    (halnum : ∀ x ∈ c :: t, isAlpha x = true ∨ isDigit x = true)
    (hcls : classify (k ++ c :: t) = .TOKEN_IDENTIFIER) :
    scanType (k ++ c :: t) = .TOKEN_IDENTIFIER := by
  have h0 : isAlpha (charAt (k ++ c :: t) 0) = true := by
    cases k with
    | nil => exact absurd rfl hne
    | cons a as => exact hk a (by simp)
  have hall : ∀ x ∈ k ++ c :: t, isAlpha x = true ∨ isDigit x = true := by
    intro x hx
    rcases List.mem_append.1 hx with h | h
    · exact .inl (hk x h)
    · exact halnum x h
  rw [scanType_eq_classify _ h0 hall, hcls]

/-! ## Claim C1: block comments are not actually skipped -/

/-- C1 (contradicting the claim): the block-comment branch of
`skipWhitespace` is unreachable — its guard reads `peek() == '*'`, but
inside `case '/'` the current character `peek()` yields is necessarily
`'/'` — so a `/* … */` comment is **not** consumed: scanning
`"/* hi */ 1"` returns a `TOKEN_SLASH` for the opening `'/'` and then a
`TOKEN_ASTERISK` for the `'*'`; the comment's interior is tokenized
normally instead of being skipped. -/
theorem block_comment_not_skipped :
    (scanToken (initScanner "/* hi */ 1".toList)).1.type = .TOKEN_SLASH ∧
    (scanToken ((scanToken (initScanner "/* hi */ 1".toList)).2)).1.type = .TOKEN_ASTERISK := by
  decide

/-! ## Claim C4: no error token for an unterminated block comment -/

/-- C4 (contradicting the claim): on a source that is an unclosed block
comment, `scanToken` returns `TOKEN_SLASH`, not `TOKEN_ERROR`.  The
unterminated-comment condition can never even be detected: the block-comment
branch is unreachable (see `block_comment_not_skipped`), and in the source
the branch's `errorToken(...)` result is discarded rather than returned in
any case. -/
theorem unterminated_block_comment_no_error :
    (scanToken (initScanner "/*".toList)).1.type = .TOKEN_SLASH ∧
    (scanToken (initScanner "/*".toList)).1.type ≠ .TOKEN_ERROR := by
  decide

/-! ## Claim C9: scanToken is idempotent at end of input -/

/-- C9: once the cursor sits on the terminating null byte, `scanToken`
returns a `TOKEN_EOF` token, leaves `current` and `line` untouched, and
calling it again returns the very same token and state. -/
theorem scanToken_eof_idempotent (s : Scanner) (h : isAtEnd s = true) :
    (scanToken s).1.type = .TOKEN_EOF ∧
    (scanToken s).2.current = s.current ∧
    (scanToken s).2.line = s.line ∧
    scanToken (scanToken s).2 = scanToken s := by
  rw [scanToken_atEnd s h]
  refine ⟨rfl, rfl, rfl, ?_⟩
  rw [scanToken_atEnd { s with start := s.current } h]

/-- C9 witness: the empty source is at end; scanning yields `TOKEN_EOF` and
a second scan changes nothing. -/
theorem scanToken_eof_idempotent_witness :
    isAtEnd (initScanner []) = true ∧
    ((scanToken (initScanner [])).1.type = .TOKEN_EOF ∧
     (scanToken (initScanner [])).2.current = (initScanner []).current ∧
     (scanToken (initScanner [])).2.line = (initScanner []).line ∧
     scanToken (scanToken (initScanner [])).2 = scanToken (initScanner [])) :=
  ⟨by decide, scanToken_eof_idempotent (initScanner []) (by decide)⟩

/-! ## Claim C2: keyword classification -/

/-- C2 counterexample: scanning the spelling `fun` — a member of the spec's
keyword set — yields `TOKEN_IDENTIFIER`, not `TOKEN_FUN` (`identifierType`
has no case for a second character `'u'` under `'f'`; the spelling it
recognizes for `TOKEN_FUN` is `fn`). -/
theorem scan_fun_yields_identifier :
    scanType "fun".toList = .TOKEN_IDENTIFIER ∧
    TokenType.TOKEN_IDENTIFIER ≠ .TOKEN_FUN := by
  decide

/-- C2 (amended): with the keyword table as implemented — spelling `fn` for
`TOKEN_FUN`, all other spellings as the spec lists them — scanning each
exact spelling yields its keyword token; `fun` yields `TOKEN_IDENTIFIER`;
and every proper prefix, proper extension (by identifier characters), and
proper case variant of a table spelling yields `TOKEN_IDENTIFIER`. -/
theorem keyword_classification :
    (∀ p ∈ kwPairs, scanType p.1 = p.2) ∧
    scanType "fun".toList = .TOKEN_IDENTIFIER ∧
    (∀ p ∈ kwPairs, ∀ n, n < p.1.length → 0 < n →
      scanType (p.1.take n) = .TOKEN_IDENTIFIER) ∧
    (∀ p ∈ kwPairs, ∀ r : List Char, r ≠ [] →
      (∀ c ∈ r, isAlpha c = true ∨ isDigit c = true) →
      scanType (p.1 ++ r) = .TOKEN_IDENTIFIER) ∧
    (∀ p ∈ kwPairs, ∀ w ∈ caseVariants p.1, w ≠ p.1 →
      scanType w = .TOKEN_IDENTIFIER) := by
  refine ⟨by decide, by decide, by decide, ?_, by decide⟩
  intro p hp r hr halnum
  obtain ⟨c, t, rfl⟩ := List.exists_cons_of_ne_nil hr
  fin_cases hp <;>
    exact scanType_append_ident _ c t (by decide) (by decide) halnum
      (by simp [classify, identifierType, checkKeyword, charAt])

/-- C2 witness: `andx` extends the keyword `and` by an identifier character
and scans as an identifier. -/
theorem keyword_classification_witness :
    scanType ("and".toList ++ ['x']) = .TOKEN_IDENTIFIER :=
  keyword_classification.2.2.2.1 ("and".toList, .TOKEN_AND) (by decide) ['x']
    (by decide) (by decide)

end CLox
